import Mathlib

/-!
Shallow embedding of the boids simulation core (`src/main8.py`): the 2-D
vector math, the flocking rules (`Boid.apply_rules`), boundary repulsion
(`Boid.avoid_edges`), noise perturbation (`Boid.add_noise`), the attractor
field (`Boid.apply_attractors`), the velocity integrator (`Boid.update`),
the per-tick sweep over the population (`main`), and the background field
sampler (`compute_background_surface`).

Machine floats are modelled by exact reals; pygame's `Vector2.normalize`,
which raises `ValueError` on a zero-length vector, is modelled by an
`Option`-valued normalization at the call sites the code does not guard.
-/

open scoped Classical

noncomputable section

namespace Boids

/-! ### Configuration constants (`main8.py`, lines 14-46) -/

def START_SPEED : ℝ := 2.25
def MAX_SPEED : ℝ := 5
def PERCEPTION_RADIUS : ℝ := 30
def BOUNDARY_PERCEPTION : ℝ := PERCEPTION_RADIUS
def SEPARATION_RADIUS : ℝ := 40
def COHESION_WEIGHT : ℝ := 0.4
def ALIGNMENT_WEIGHT : ℝ := 0.2
def SEPARATION_WEIGHT : ℝ := 3
def RANDOMNESS_WEIGHT : ℝ := 0.225
def MASS_EQUIVALENT : ℝ := 2
def TURN_FACTOR : ℝ := 0.0325
def SPEED_ADJUSTMENT_FACTOR : ℝ := 0.3
def ATTRACTOR_FORCE : ℝ := 10
def ATTRACTOR_FORCE_MAX : ℝ := 20
def ATTRACTOR_FORCE_DISTANCE_EXP : ℤ := -1
def ATTRACTOR_COLOR_FACTOR : ℝ := 2
def BG_SCALE : ℝ := 0.25

/-! ### Vector math (pygame `Vector2`) -/

/-- A 2-D vector, standing for `pygame.Vector2`. -/
structure Vec2 where
  x : ℝ
  y : ℝ

instance : Zero Vec2 := ⟨⟨0, 0⟩⟩

instance : Add Vec2 := ⟨fun a b => ⟨a.x + b.x, a.y + b.y⟩⟩

instance : Sub Vec2 := ⟨fun a b => ⟨a.x - b.x, a.y - b.y⟩⟩

instance : HMul Vec2 ℝ Vec2 := ⟨fun v c => ⟨v.x * c, v.y * c⟩⟩

instance : HMul ℝ Vec2 Vec2 := ⟨fun c v => ⟨c * v.x, c * v.y⟩⟩

instance : HDiv Vec2 ℝ Vec2 := ⟨fun v c => ⟨v.x / c, v.y / c⟩⟩

/-- Squared Euclidean length. -/
def Vec2.lengthSq (v : Vec2) : ℝ := v.x ^ 2 + v.y ^ 2

/-- Euclidean length, `Vector2.length()`. -/
def Vec2.length (v : Vec2) : ℝ := Real.sqrt v.lengthSq

/-- Unit vector in the direction of `v` (total function; the zero vector is
sent to the zero vector since the components divide by zero). -/
def Vec2.normalize (v : Vec2) : Vec2 := ⟨v.x / v.length, v.y / v.length⟩

/-- `Vector2.normalize()` as the code observes it: pygame raises
`ValueError` on a zero-length vector, modelled by `none`. -/
def Vec2.normalizeOpt (v : Vec2) : Option Vec2 :=
  if v.length = 0 then none else some v.normalize

/-- `Vector2.distance_to`. -/
def Vec2.dist (a b : Vec2) : ℝ := (a - b).length

/-- Dot product. -/
def Vec2.dot (a b : Vec2) : ℝ := a.x * b.x + a.y * b.y

/-! ### Agent state (`Boid.__init__`) -/

/-- The mutable per-agent state. The derived display color is omitted: it is
overwritten every tick from already-computed values and never read back into
the physics (`Boid.update_color`). -/
structure BoidState where
  position : Vec2
  velocity : Vec2
  acceleration : Vec2
  cohesionWeight : ℝ
  alignmentWeight : ℝ
  separationWeight : ℝ
  noiseOffsetX : ℝ
  noiseOffsetY : ℝ

/-! ### Flocking rules (`Boid.apply_rules`, lines 150-169) -/

/-- Accumulator of the neighbor scan: separation, alignment and cohesion
sums plus the neighbor count. -/
structure RulesAcc where
  sep : Vec2
  ali : Vec2
  coh : Vec2
  total : ℕ

/-- The neighbor-scan loop of `apply_rules` (lines 155-165), folded over the
other agents.  Inside `PERCEPTION_RADIUS`, a neighbor inside
`SEPARATION_RADIUS` additionally contributes `diff.normalize() / distance`
to the separation sum; `normalize` on the zero difference of coincident
agents faults (`none`). -/
def rulesAcc (pos : Vec2) : List BoidState → RulesAcc → Option RulesAcc
  | [], acc => some acc
  | b :: rest, acc =>
    let d := Vec2.dist pos b.position
    if d < PERCEPTION_RADIUS then
      if d < SEPARATION_RADIUS then
        (Vec2.normalizeOpt (pos - b.position)).bind fun u =>
          rulesAcc pos rest ⟨acc.sep + u / d, acc.ali + b.velocity, acc.coh + b.position, acc.total + 1⟩
      else rulesAcc pos rest ⟨acc.sep, acc.ali + b.velocity, acc.coh + b.position, acc.total + 1⟩
    else rulesAcc pos rest acc

/-- The acceleration contribution of `apply_rules` (lines 166-169): zero when
no neighbor was counted, otherwise weighted separation sum, alignment
average and normalized cohesion offset. -/
def applyRules (self : BoidState) (others : List BoidState) : Option Vec2 :=
  (rulesAcc self.position others ⟨0, 0, 0, 0⟩).bind fun acc =>
    if 0 < acc.total then
      (Vec2.normalizeOpt (acc.coh / (acc.total : ℝ) - self.position)).map fun cu =>
        acc.sep * self.separationWeight + (acc.ali / (acc.total : ℝ)) * self.alignmentWeight
          + cu * self.cohesionWeight
    else some 0

/-- The separation part of the `apply_rules` contribution (line 167):
the separation sum scaled by the subject's separation weight. -/
def separationContribution (self : BoidState) (others : List BoidState) : Option Vec2 :=
  (rulesAcc self.position others ⟨0, 0, 0, 0⟩).map fun acc => acc.sep * self.separationWeight

/-! ### Boundary force (`Boid.avoid_edges`, lines 171-182) -/

/-- Soft inward repulsion within `BOUNDARY_PERCEPTION` of each world edge;
the world bounds `W`, `H` are runtime parameters (the code overwrites
`SCREEN_WIDTH`/`SCREEN_HEIGHT` from the monitor at startup). -/
def avoidEdges (W H : ℝ) (p : Vec2) : Vec2 :=
  ⟨if p.x < BOUNDARY_PERCEPTION then TURN_FACTOR * (BOUNDARY_PERCEPTION - p.x)
     else if W - BOUNDARY_PERCEPTION < p.x then -(TURN_FACTOR * (p.x - (W - BOUNDARY_PERCEPTION)))
     else 0,
   if p.y < BOUNDARY_PERCEPTION then TURN_FACTOR * (BOUNDARY_PERCEPTION - p.y)
     else if H - BOUNDARY_PERCEPTION < p.y then -(TURN_FACTOR * (p.y - (H - BOUNDARY_PERCEPTION)))
     else 0⟩

/-! ### Attractor field (`Boid.apply_attractors`, lines 191-197) -/

/-- The per-attractor acceleration contribution, parametrized by the force
constant, distance exponent, magnitude cap and mass divisor (the code fixes
these to `ATTRACTOR_FORCE`, `ATTRACTOR_FORCE_DISTANCE_EXP`,
`ATTRACTOR_FORCE_MAX`, `MASS_EQUIVALENT`).  The zero-direction case is
guarded in the code (`if direction.length() != 0`) and contributes
nothing. -/
def attractorContribution (F : ℝ) (e : ℤ) (Fmax mass : ℝ) (attractor pos : Vec2) : Vec2 :=
  let direction := attractor - pos
  if direction.length = 0 then 0
  else direction.normalize * min (F * direction.length ^ e / mass) Fmax

/-- The summed attractor contribution of `apply_attractors` with the
configuration constants of `main8.py`. -/
def attractorSum (attractors : List Vec2) (pos : Vec2) : Vec2 :=
  attractors.foldl
    (fun acc a =>
      acc + attractorContribution ATTRACTOR_FORCE ATTRACTOR_FORCE_DISTANCE_EXP
        ATTRACTOR_FORCE_MAX MASS_EQUIVALENT a pos)
    0

/-! ### Integrator (`Boid.update`, lines 137-148) -/

/-- The velocity pipeline of `Boid.update`: inertia (`velocity +=
acceleration / mass`), the speed cap, and the speed relaxation.  Note that
the code computes `speed` once, before the cap, and reuses it in the
relaxation. -/
def integrateVelocity (startSpeed saf maxSpeed mass : ℝ) (v a : Vec2) : Vec2 :=
  let v1 := v + a / mass
  let speed := v1.length
  let v2 := if maxSpeed < speed then v1.normalize * maxSpeed else v1
  if speed = 0 then v2 else v2.normalize * (speed + (startSpeed - speed) * saf)

/-- One full `Boid.update` call against a given list of other agents: reset
and accumulate acceleration (rules, edges, noise, attractors), integrate
velocity, advance position, damp velocity, advance the noise phases.  The
coherent-noise function `noiseFun` (`noise.pnoise1`) is an external library
routine passed as a parameter.  `none` models the uncaught `ValueError`
from an unguarded zero-vector normalization in `apply_rules`. -/
def updateBoid (noiseFun : ℝ → ℝ) (attractors : List Vec2) (W H : ℝ)
    (self : BoidState) (others : List BoidState) : Option BoidState :=
  (applyRules self others).map fun rules =>
    let acc := (0 : Vec2) + rules + avoidEdges W H self.position
      + (⟨noiseFun self.noiseOffsetX, noiseFun self.noiseOffsetY⟩ : Vec2) * RANDOMNESS_WEIGHT
      + attractorSum attractors self.position
    let v := integrateVelocity START_SPEED SPEED_ADJUSTMENT_FACTOR MAX_SPEED MASS_EQUIVALENT
      self.velocity acc
    { self with
      position := self.position + v
      velocity := (0.95 : ℝ) * v
      acceleration := acc
      noiseOffsetX := self.noiseOffsetX + 0.01
      noiseOffsetY := self.noiseOffsetY + 0.01 }

/-! ### The per-tick sweep (`main`, lines 259-262) -/

/-- One iteration of the update loop at index `i`: the subject is read from
the *current* population state, the other agents are the current state with
the subject removed (the code skips `self` by object identity), and the
updated subject is written back in place. -/
def sweepStep (noiseFun : ℝ → ℝ) (attractors : List Vec2) (W H : ℝ)
    (state : List BoidState) (i : ℕ) : Option (List BoidState) :=
  match state[i]? with
  | none => some state
  | some self =>
    (updateBoid noiseFun attractors W H self (state.eraseIdx i)).map fun self2 =>
      state.set i self2

/-- Runs `sweepStep` over a list of indices, threading the mutated
population state. -/
def sweepAux (noiseFun : ℝ → ℝ) (attractors : List Vec2) (W H : ℝ) :
    List ℕ → List BoidState → Option (List BoidState)
  | [], s => some s
  | i :: rest, s =>
    (sweepStep noiseFun attractors W H s i).bind fun s2 =>
      sweepAux noiseFun attractors W H rest s2

/-- The tick loop of `main` (lines 260-261): sequential in-place update of
every agent, in list order. -/
def sweepInPlace (noiseFun : ℝ → ℝ) (attractors : List Vec2) (W H : ℝ)
    (boids : List BoidState) : Option (List BoidState) :=
  sweepAux noiseFun attractors W H (List.range boids.length) boids

/-- Helper for `sweepSnapshot`: updates each listed index against the frozen
initial population. -/
def snapAux (noiseFun : ℝ → ℝ) (attractors : List Vec2) (W H : ℝ)
    (boids : List BoidState) : List ℕ → Option (List BoidState)
  | [] => some []
  | i :: rest =>
    match boids[i]? with
    | none => none
    | some self =>
      (updateBoid noiseFun attractors W H self (boids.eraseIdx i)).bind fun b2 =>
        (snapAux noiseFun attractors W H boids rest).map fun bs => b2 :: bs

/-- Modelled from the spec: the snapshot-isolated tick the spec requires
("all per-agent force computations must observe a single consistent
snapshot of the previous tick's agent states").  Every agent is updated
against the read-only population state taken at the start of the tick. -/
def sweepSnapshot (noiseFun : ℝ → ℝ) (attractors : List Vec2) (W H : ℝ)
    (boids : List BoidState) : Option (List BoidState) :=
  snapAux noiseFun attractors W H boids (List.range boids.length)

/-! ### Field sampler (`compute_background_surface`, lines 78-113) -/

/-- The per-attractor force sample at a grid point (lines 92-104): the
distance is floored at `1e-5` instead of branch-guarded, the magnitude is
capped at `ATTRACTOR_FORCE_MAX`, and no mass divisor is applied. -/
def fieldForceOne (a p : Vec2) : Vec2 :=
  let d := a - p
  let dist := max d.length 1e-5
  let force := min (ATTRACTOR_FORCE * dist ^ ATTRACTOR_FORCE_DISTANCE_EXP) ATTRACTOR_FORCE_MAX
  (d / dist) * force

/-- The net attractor force at a sample point, summed over the attractor
list. -/
def netFieldForce (attractors : List Vec2) (p : Vec2) : Vec2 :=
  attractors.foldl (fun acc a => acc + fieldForceOne a p) 0

/-- Brightness before the byte cast (lines 106-109): net force magnitude
mapped linearly and clipped to `[0, 255]`. -/
def brightnessReal (attractors : List Vec2) (p : Vec2) : ℝ :=
  min (max ((netFieldForce attractors p).length / ATTRACTOR_FORCE_MAX * ATTRACTOR_COLOR_FACTOR * 255) 0) 255

/-- The stored brightness byte: the clipped value truncated to an integer
(`astype(np.uint8)`; on the clipped nonnegative range truncation is the
floor). -/
def brightnessByte (attractors : List Vec2) (p : Vec2) : ℤ :=
  ⌊brightnessReal attractors p⌋

/-- `np.linspace a b n` evaluated at index `i`. -/
def linspaceVal (a b : ℝ) (n i : ℕ) : ℝ := a + (b - a) * i / ((n : ℝ) - 1)

/-- The brightness grid cell at row `i`, column `j`, for world bounds
`W × H`: the sample points come from `np.linspace` over a grid scaled by
`BG_SCALE`. -/
def gridBrightness (W H : ℝ) (attractors : List Vec2) (i j : ℕ) : ℤ :=
  brightnessByte attractors
    ⟨linspaceVal 0 W (Int.toNat ⌊W * BG_SCALE⌋) j, linspaceVal 0 H (Int.toNat ⌊H * BG_SCALE⌋) i⟩

/-! ### Concrete inputs used in the claim theorems -/

/-- The identically-zero noise function (a valid value of the external
coherent-noise routine, used for concrete evaluations). -/
def zeroNoise : ℝ → ℝ := fun _ => 0

/-- A boid with the default (unjittered) rule weights and zeroed noise
phases at the given position and velocity. -/
def mkBoid (p v : Vec2) : BoidState :=
  { position := p, velocity := v, acceleration := 0,
    cohesionWeight := COHESION_WEIGHT, alignmentWeight := ALIGNMENT_WEIGHT,
    separationWeight := SEPARATION_WEIGHT,
    noiseOffsetX := 0, noiseOffsetY := 0 }

/-- A boid cruising rightward at `MAX_SPEED` in the interior of a
1500 x 1000 world. -/
def c1A : BoidState := mkBoid ⟨700, 500⟩ ⟨5, 0⟩

/-- A second boid a tenth of a unit to the right of `c1A`. -/
def c1B : BoidState := mkBoid ⟨700.1, 500⟩ ⟨1, 0⟩

/-- First boid of the two-agent tick used against the snapshot claim. -/
def c2A : BoidState := mkBoid ⟨700, 500⟩ ⟨1, 0⟩

/-- Second boid of the two-agent tick, ten units right of `c2A`. -/
def c2B : BoidState := mkBoid ⟨710, 500⟩ ⟨1, 0⟩

/-- Two boids at the same position: `c4B` coincides with `c4A`. -/
def c4A : BoidState := mkBoid ⟨700, 500⟩ ⟨1, 0⟩

/-- A boid coincident with `c4A`. -/
def c4B : BoidState := mkBoid ⟨700, 500⟩ ⟨0, 1⟩

/-- Subject whose two neighbors average to exactly its own position. -/
def c4C : BoidState := mkBoid ⟨500, 500⟩ ⟨1, 0⟩

/-- Neighbor ten units right of `c4C`. -/
def c4D : BoidState := mkBoid ⟨510, 500⟩ ⟨1, 0⟩

/-- Neighbor ten units left of `c4C`. -/
def c4E : BoidState := mkBoid ⟨490, 500⟩ ⟨1, 0⟩

/-- State of `c2A` after its update (same in the in-place and snapshot
sweeps, since `c2A` is first in the iteration order). -/
def c2A' : BoidState :=
  { position := ⟨701.48, 500⟩, velocity := ⟨1.406, 0⟩, acceleration := ⟨0.3, 0⟩,
    cohesionWeight := COHESION_WEIGHT, alignmentWeight := ALIGNMENT_WEIGHT,
    separationWeight := SEPARATION_WEIGHT, noiseOffsetX := 0.01, noiseOffsetY := 0.01 }

/-- State of `c2B` after the in-place sweep, where its force computation
reads the already-updated `c2A'`. -/
def c2Bip : BoidState :=
  { position := ⟨2525671141 / 3550000, 500⟩, velocity := ⟨98251679 / 71000000, 0⟩,
    acceleration := ⟨41413 / 177500, 0⟩,
    cohesionWeight := COHESION_WEIGHT, alignmentWeight := ALIGNMENT_WEIGHT,
    separationWeight := SEPARATION_WEIGHT, noiseOffsetX := 0.01, noiseOffsetY := 0.01 }

/-- State of `c2B` after a snapshot-isolated update, where its force
computation reads the previous-tick `c2A`. -/
def c2Bsnap : BoidState :=
  { position := ⟨711.41, 500⟩, velocity := ⟨1.3395, 0⟩, acceleration := ⟨0.1, 0⟩,
    cohesionWeight := COHESION_WEIGHT, alignmentWeight := ALIGNMENT_WEIGHT,
    separationWeight := SEPARATION_WEIGHT, noiseOffsetX := 0.01, noiseOffsetY := 0.01 }

/-- State of `c2A` after an update with no other agents present. -/
def c2single : BoidState :=
  { position := ⟨701.375, 500⟩, velocity := ⟨1.30625, 0⟩, acceleration := ⟨0, 0⟩,
    cohesionWeight := COHESION_WEIGHT, alignmentWeight := ALIGNMENT_WEIGHT,
    separationWeight := SEPARATION_WEIGHT, noiseOffsetX := 0.01, noiseOffsetY := 0.01 }

/-- Subject of the separation counterexample. -/
def c3A : BoidState := mkBoid ⟨700, 500⟩ ⟨1, 0⟩

/-- A boid 35 units from `c3A`: inside `SEPARATION_RADIUS` (40) but outside
`PERCEPTION_RADIUS` (30). -/
def c3B : BoidState := mkBoid ⟨735, 500⟩ ⟨1, 0⟩

/-! ### Basic vector lemmas -/

@[simp] theorem Vec2.add_x (a b : Vec2) : (a + b).x = a.x + b.x := rfl

@[simp] theorem Vec2.add_y (a b : Vec2) : (a + b).y = a.y + b.y := rfl

@[simp] theorem Vec2.sub_x (a b : Vec2) : (a - b).x = a.x - b.x := rfl

@[simp] theorem Vec2.sub_y (a b : Vec2) : (a - b).y = a.y - b.y := rfl

@[simp] theorem Vec2.hmul_x (v : Vec2) (c : ℝ) : (v * c).x = v.x * c := rfl

@[simp] theorem Vec2.hmul_y (v : Vec2) (c : ℝ) : (v * c).y = v.y * c := rfl

@[simp] theorem Vec2.smul_x (c : ℝ) (v : Vec2) : (c * v).x = c * v.x := rfl

@[simp] theorem Vec2.smul_y (c : ℝ) (v : Vec2) : (c * v).y = c * v.y := rfl

@[simp] theorem Vec2.div_x (v : Vec2) (c : ℝ) : (v / c).x = v.x / c := rfl

@[simp] theorem Vec2.div_y (v : Vec2) (c : ℝ) : (v / c).y = v.y / c := rfl

@[simp] theorem Vec2.zero_x : (0 : Vec2).x = 0 := rfl

@[simp] theorem Vec2.zero_y : (0 : Vec2).y = 0 := rfl

theorem Vec2.zero_def : (0 : Vec2) = ⟨0, 0⟩ := rfl

theorem Vec2.mk_add_mk (a b c d : ℝ) : (⟨a, b⟩ + ⟨c, d⟩ : Vec2) = ⟨a + c, b + d⟩ := rfl

theorem Vec2.mk_sub_mk (a b c d : ℝ) : (⟨a, b⟩ - ⟨c, d⟩ : Vec2) = ⟨a - c, b - d⟩ := rfl

theorem Vec2.mk_mul_c (a b c : ℝ) : ((⟨a, b⟩ : Vec2) * c) = (⟨a * c, b * c⟩ : Vec2) := rfl

theorem Vec2.c_mul_mk (c a b : ℝ) : (c * (⟨a, b⟩ : Vec2)) = (⟨c * a, c * b⟩ : Vec2) := rfl

theorem Vec2.mk_div_c (a b c : ℝ) : ((⟨a, b⟩ : Vec2) / c) = (⟨a / c, b / c⟩ : Vec2) := rfl

theorem Vec2.lengthSq_nonneg (v : Vec2) : 0 ≤ v.lengthSq :=
  add_nonneg (sq_nonneg _) (sq_nonneg _)

theorem Vec2.length_nonneg (v : Vec2) : 0 ≤ v.length := Real.sqrt_nonneg _

theorem Vec2.sq_length (v : Vec2) : v.length ^ 2 = v.lengthSq :=
  Real.sq_sqrt v.lengthSq_nonneg

theorem Vec2.length_mk_xaxis (x : ℝ) : (Vec2.mk x 0).length = |x| := by
  simp [Vec2.length, Vec2.lengthSq, Real.sqrt_sq_eq_abs]

theorem Vec2.length_mk_xaxis_nonneg (x : ℝ) (h : 0 ≤ x) : (Vec2.mk x 0).length = x := by
  rw [Vec2.length_mk_xaxis, abs_of_nonneg h]

theorem Vec2.length_mk_xaxis_neg (x : ℝ) (h : x < 0) : (Vec2.mk x 0).length = -x := by
  rw [Vec2.length_mk_xaxis, abs_of_neg h]

theorem Vec2.length_zero : (0 : Vec2).length = 0 := by
  rw [Vec2.zero_def, Vec2.length_mk_xaxis_nonneg 0 le_rfl]

theorem Vec2.zero_add (v : Vec2) : 0 + v = v := by
  cases v
  simp [Vec2.zero_def, Vec2.mk_add_mk]

theorem Vec2.add_zero (v : Vec2) : v + 0 = v := by
  cases v
  simp [Vec2.zero_def, Vec2.mk_add_mk]

theorem Vec2.div_one (v : Vec2) : v / (1 : ℝ) = v := by
  cases v
  simp [Vec2.mk_div_c]

theorem Vec2.length_hmul (v : Vec2) (c : ℝ) : (v * c).length = v.length * |c| := by
  unfold Vec2.length Vec2.lengthSq
  rw [Vec2.hmul_x, Vec2.hmul_y,
    show (v.x * c) ^ 2 + (v.y * c) ^ 2 = (v.x ^ 2 + v.y ^ 2) * c ^ 2 by ring,
    Real.sqrt_mul (by positivity), Real.sqrt_sq_eq_abs]

theorem Vec2.normalize_eq_hmul (v : Vec2) : v.normalize = v * (1 / v.length) := by
  cases v
  simp [Vec2.normalize, Vec2.mk_mul_c, div_eq_mul_inv, one_div]

theorem Vec2.length_normalize (v : Vec2) (h : v.length ≠ 0) : v.normalize.length = 1 := by
  have hpos : 0 < v.length := lt_of_le_of_ne v.length_nonneg (Ne.symm h)
  rw [Vec2.normalize_eq_hmul, Vec2.length_hmul, abs_of_pos (by positivity), one_div,
    mul_inv_cancel₀ h]

/-! ### Claim C5: zero neighbors contribute zero -/

theorem rulesAcc_of_far (pos : Vec2) (others : List BoidState) (acc : RulesAcc)
    (h : ∀ b ∈ others, ¬ Vec2.dist pos b.position < PERCEPTION_RADIUS) :
    rulesAcc pos others acc = some acc := by
  induction others generalizing acc with
  | nil => rfl
  | cons b rest ih =>
    have hb := h b (List.mem_cons_self b rest)
    rw [rulesAcc, if_neg hb]
    exact ih acc fun b' hb' => h b' (List.mem_cons_of_mem _ hb')

/-- Claim C5: for every agent with zero neighbors within `PERCEPTION_RADIUS`
(so `total == 0`), the flocking rules of `apply_rules` contribute exactly
the zero vector to the acceleration accumulator. -/
theorem c5_zero_neighbors_zero_contribution (self : BoidState) (others : List BoidState)
    (h : ∀ b ∈ others, PERCEPTION_RADIUS ≤ Vec2.dist self.position b.position) :
    applyRules self others = some 0 := by
  rw [applyRules, rulesAcc_of_far _ _ _ fun b hb => not_lt.mpr (h b hb)]
  simp

/-- Witness for C5 at a concrete far pair: distance 100 is at least the
perception radius and the contribution evaluates to zero. -/
theorem c5_zero_neighbors_zero_contribution_witness :
    PERCEPTION_RADIUS ≤ Vec2.dist (mkBoid ⟨0, 0⟩ ⟨1, 0⟩).position (mkBoid ⟨100, 0⟩ ⟨1, 0⟩).position
      ∧ applyRules (mkBoid ⟨0, 0⟩ ⟨1, 0⟩) [mkBoid ⟨100, 0⟩ ⟨1, 0⟩] = some 0 := by
  have hd : Vec2.dist (mkBoid ⟨0, 0⟩ ⟨1, 0⟩).position (mkBoid ⟨100, 0⟩ ⟨1, 0⟩).position = 100 := by
    norm_num [mkBoid, Vec2.dist, Vec2.mk_sub_mk, Vec2.length_mk_xaxis_neg]
  constructor
  · rw [hd]; norm_num [PERCEPTION_RADIUS]
  · refine c5_zero_neighbors_zero_contribution _ _ ?_
    intro b hb
    rw [List.mem_singleton] at hb
    subst hb
    rw [hd]
    norm_num [PERCEPTION_RADIUS]

/-! ### Claim C9: boundary force -/

/-- Claim C9: on each axis the boundary force is
`TURN_FACTOR * (margin - distance-to-edge)` directed inward when the agent
is within `BOUNDARY_PERCEPTION` of that axis's edge, linear in penetration
depth, and exactly zero when the agent is outside the margin on that
axis. -/
theorem c9_boundary_force (W H : ℝ) (p : Vec2) :
    (p.x < BOUNDARY_PERCEPTION →
      (avoidEdges W H p).x = TURN_FACTOR * (BOUNDARY_PERCEPTION - p.x) ∧ 0 < (avoidEdges W H p).x) ∧
    (BOUNDARY_PERCEPTION ≤ p.x → p.x ≤ W - BOUNDARY_PERCEPTION → (avoidEdges W H p).x = 0) ∧
    (BOUNDARY_PERCEPTION ≤ p.x → W - BOUNDARY_PERCEPTION < p.x →
      (avoidEdges W H p).x = -(TURN_FACTOR * (BOUNDARY_PERCEPTION - (W - p.x)))
        ∧ (avoidEdges W H p).x < 0) ∧
    (p.y < BOUNDARY_PERCEPTION →
      (avoidEdges W H p).y = TURN_FACTOR * (BOUNDARY_PERCEPTION - p.y) ∧ 0 < (avoidEdges W H p).y) ∧
    (BOUNDARY_PERCEPTION ≤ p.y → p.y ≤ H - BOUNDARY_PERCEPTION → (avoidEdges W H p).y = 0) ∧
    (BOUNDARY_PERCEPTION ≤ p.y → H - BOUNDARY_PERCEPTION < p.y →
      (avoidEdges W H p).y = -(TURN_FACTOR * (BOUNDARY_PERCEPTION - (H - p.y)))
        ∧ (avoidEdges W H p).y < 0) := by
  have htf : (0 : ℝ) < TURN_FACTOR := by norm_num [TURN_FACTOR]
  refine ⟨fun h => ?_, fun h1 h2 => ?_, fun h1 h2 => ?_, fun h => ?_, fun h1 h2 => ?_,
    fun h1 h2 => ?_⟩
  · rw [show (avoidEdges W H p).x = TURN_FACTOR * (BOUNDARY_PERCEPTION - p.x) by
      simp [avoidEdges, if_pos h]]
    exact ⟨rfl, mul_pos htf (by linarith)⟩
  · simp [avoidEdges, if_neg (not_lt.mpr h1), if_neg (not_lt.mpr h2)]
  · rw [show (avoidEdges W H p).x = -(TURN_FACTOR * (p.x - (W - BOUNDARY_PERCEPTION))) by
      simp [avoidEdges, if_neg (not_lt.mpr h1), if_pos h2]]
    constructor
    · ring_nf
    · have : 0 < TURN_FACTOR * (p.x - (W - BOUNDARY_PERCEPTION)) := mul_pos htf (by linarith)
      linarith
  · rw [show (avoidEdges W H p).y = TURN_FACTOR * (BOUNDARY_PERCEPTION - p.y) by
      simp [avoidEdges, if_pos h]]
    exact ⟨rfl, mul_pos htf (by linarith)⟩
  · simp [avoidEdges, if_neg (not_lt.mpr h1), if_neg (not_lt.mpr h2)]
  · rw [show (avoidEdges W H p).y = -(TURN_FACTOR * (p.y - (H - BOUNDARY_PERCEPTION))) by
      simp [avoidEdges, if_neg (not_lt.mpr h1), if_pos h2]]
    constructor
    · ring_nf
    · have : 0 < TURN_FACTOR * (p.y - (H - BOUNDARY_PERCEPTION)) := mul_pos htf (by linarith)
      linarith

/-- Witness for C9 in a 1500 x 1000 world at position `(10, 980)`: inside
the left margin on x (inward positive force of the claimed magnitude) and
inside the bottom margin on y (inward negative force). -/
theorem c9_boundary_force_witness :
    (10 : ℝ) < BOUNDARY_PERCEPTION ∧
    (avoidEdges 1500 1000 ⟨10, 980⟩).x = TURN_FACTOR * (BOUNDARY_PERCEPTION - 10) ∧
    0 < (avoidEdges 1500 1000 ⟨10, 980⟩).x ∧
    (avoidEdges 1500 1000 ⟨10, 980⟩).y = -(TURN_FACTOR * (BOUNDARY_PERCEPTION - (1000 - 980))) ∧
    (avoidEdges 1500 1000 ⟨10, 980⟩).y < 0 := by
  have h := c9_boundary_force 1500 1000 ⟨10, 980⟩
  have hx := h.1 (by norm_num [BOUNDARY_PERCEPTION, PERCEPTION_RADIUS])
  have hy := h.2.2.2.2.2 (by norm_num [BOUNDARY_PERCEPTION, PERCEPTION_RADIUS])
    (by norm_num [BOUNDARY_PERCEPTION, PERCEPTION_RADIUS])
  exact ⟨by norm_num [BOUNDARY_PERCEPTION, PERCEPTION_RADIUS], hx.1, hx.2, hy.1, hy.2⟩

/-! ### Claim C6: attractor contribution capped -/

/-- Claim C6: for every attractor and subject position at positive distance,
the per-attractor acceleration contribution of `apply_attractors` has
magnitude at most `ATTRACTOR_FORCE_MAX`; in particular it stays finite and
clamped as the distance tends to zero. -/
theorem c6_attractor_contribution_capped (a p : Vec2) (h : 0 < (a - p).length) :
    (attractorContribution ATTRACTOR_FORCE ATTRACTOR_FORCE_DISTANCE_EXP ATTRACTOR_FORCE_MAX
      MASS_EQUIVALENT a p).length ≤ ATTRACTOR_FORCE_MAX := by
  unfold attractorContribution
  rw [if_neg h.ne', Vec2.length_hmul, Vec2.length_normalize _ h.ne', one_mul]
  have hval : 0 < ATTRACTOR_FORCE * (a - p).length ^ ATTRACTOR_FORCE_DISTANCE_EXP
      / MASS_EQUIVALENT :=
    div_pos (mul_pos (by norm_num [ATTRACTOR_FORCE]) (zpow_pos h _))
      (by norm_num [MASS_EQUIVALENT])
  rw [abs_of_pos (lt_min hval (by norm_num [ATTRACTOR_FORCE_MAX]))]
  exact min_le_right _ _

/-- Witness for C6 at an attractor 100 units away from the subject. -/
theorem c6_attractor_contribution_capped_witness :
    0 < ((⟨100, 100⟩ : Vec2) - ⟨200, 100⟩).length ∧
    (attractorContribution ATTRACTOR_FORCE ATTRACTOR_FORCE_DISTANCE_EXP ATTRACTOR_FORCE_MAX
      MASS_EQUIVALENT ⟨100, 100⟩ ⟨200, 100⟩).length ≤ ATTRACTOR_FORCE_MAX := by
  have hd : ((⟨100, 100⟩ : Vec2) - ⟨200, 100⟩).length = 100 := by
    norm_num [Vec2.mk_sub_mk, Vec2.length_mk_xaxis_neg]
  exact ⟨by rw [hd]; norm_num,
    c6_attractor_contribution_capped _ _ (by rw [hd]; norm_num)⟩

/-! ### Claim C7: concrete attractor scenario -/

/-- Claim C7: with one attractor at `(100, 100)`, force constant 10,
distance exponent -1, cap 30 and unit mass, the contribution for a subject
at `(200, 100)` is `(-0.1, 0)`: magnitude exactly `0.1`, direction
`(-1, 0)`. -/
theorem c7_attractor_concrete :
    attractorContribution 10 (-1) 30 1 ⟨100, 100⟩ ⟨200, 100⟩ = ⟨-(0.1), 0⟩ ∧
    (attractorContribution 10 (-1) 30 1 ⟨100, 100⟩ ⟨200, 100⟩).length = 0.1 ∧
    Vec2.normalize (attractorContribution 10 (-1) 30 1 ⟨100, 100⟩ ⟨200, 100⟩) = ⟨-1, 0⟩ := by
  have h : attractorContribution 10 (-1) 30 1 ⟨100, 100⟩ ⟨200, 100⟩ = ⟨-(0.1), 0⟩ := by
    unfold attractorContribution
    norm_num [Vec2.mk_sub_mk, Vec2.length_mk_xaxis_neg, Vec2.normalize, Vec2.mk_mul_c,
      min_def, Vec2.mk.injEq]
  refine ⟨h, ?_, ?_⟩
  · rw [h]
    norm_num [Vec2.length_mk_xaxis_neg]
  · rw [h]
    norm_num [Vec2.normalize, Vec2.length_mk_xaxis_neg, Vec2.mk.injEq]

/-! ### Claim C8: speed relaxation -/

/-- Claim C8: on every tick, whether or not the speed cap fired, the
integrator rescales velocity so that the new speed is
`speed + (startSpeed - speed) * saf`, where `speed` is the speed right
after the inertia update. -/
theorem c8_speed_relaxation (startSpeed saf maxSpeed mass : ℝ) (v a : Vec2)
    (hms : 0 < maxSpeed) (hs0 : 0 ≤ startSpeed) (hsaf0 : 0 ≤ saf) (hsaf1 : saf ≤ 1)
    (hnz : (v + a / mass).length ≠ 0) :
    (integrateVelocity startSpeed saf maxSpeed mass v a).length
      = (v + a / mass).length + (startSpeed - (v + a / mass).length) * saf := by
  have hspos : 0 < (v + a / mass).length :=
    lt_of_le_of_ne (Vec2.length_nonneg _) (Ne.symm hnz)
  have hnewS : 0 ≤ (v + a / mass).length + (startSpeed - (v + a / mass).length) * saf := by
    nlinarith [mul_nonneg hs0 hsaf0,
      mul_nonneg (le_of_lt hspos) (sub_nonneg.mpr hsaf1)]
  unfold integrateVelocity
  rw [if_neg hnz]
  by_cases hcap : maxSpeed < (v + a / mass).length
  · rw [if_pos hcap]
    have hl2 : ((v + a / mass).normalize * maxSpeed).length = maxSpeed := by
      rw [Vec2.length_hmul, Vec2.length_normalize _ hnz, one_mul, abs_of_pos hms]
    rw [Vec2.length_hmul, Vec2.length_normalize _ (by rw [hl2]; exact hms.ne'), one_mul,
      abs_of_nonneg hnewS]
  · rw [if_neg hcap, Vec2.length_hmul, Vec2.length_normalize _ hnz, one_mul,
      abs_of_nonneg hnewS]

/-- Witness for C8 with the claim's concrete numbers: `startSpeed = 2`,
`saf = 0.3`, current speed 5 relaxes to exactly 4.1 (before damping). -/
theorem c8_speed_relaxation_witness :
    ((⟨5, 0⟩ : Vec2) + (⟨0, 0⟩ : Vec2) / (2 : ℝ)).length ≠ 0 ∧
    (integrateVelocity 2 0.3 5 2 ⟨5, 0⟩ ⟨0, 0⟩).length = 4.1 := by
  have hlen : ((⟨5, 0⟩ : Vec2) + (⟨0, 0⟩ : Vec2) / (2 : ℝ)).length = 5 := by
    norm_num [Vec2.mk_div_c, Vec2.mk_add_mk, Vec2.length_mk_xaxis_nonneg]
  constructor
  · rw [hlen]; norm_num
  · rw [c8_speed_relaxation 2 0.3 5 2 ⟨5, 0⟩ ⟨0, 0⟩ (by norm_num) (by norm_num) (by norm_num)
      (by norm_num) (by rw [hlen]; norm_num), hlen]
    norm_num

/-! ### Claim C3: separation points away -/

/-- Claim C3 counterexample: the boids `c3A`, `c3B` sit at distance 35,
which is positive and below `SEPARATION_RADIUS` (40), yet the separation
contribution for `c3A` is the zero vector (the pair is outside
`PERCEPTION_RADIUS` = 30, which gates the whole neighbor scan), so its dot
product with `A.position - B.position` is not positive. -/
theorem c3_separation_counterexample :
    0 < Vec2.dist c3A.position c3B.position ∧
    Vec2.dist c3A.position c3B.position < SEPARATION_RADIUS ∧
    separationContribution c3A [c3B] = some 0 ∧
    ¬ (0 < Vec2.dot 0 (c3A.position - c3B.position)) := by
  have hd : Vec2.dist c3A.position c3B.position = 35 := by
    norm_num [c3A, c3B, mkBoid, Vec2.dist, Vec2.mk_sub_mk, Vec2.length_mk_xaxis_neg]
  refine ⟨by rw [hd]; norm_num, by rw [hd]; norm_num [SEPARATION_RADIUS], ?_, ?_⟩
  · norm_num [separationContribution, rulesAcc, c3A, c3B, mkBoid, Vec2.dist, Vec2.mk_sub_mk,
      Vec2.length_mk_xaxis_neg, PERCEPTION_RADIUS]
    simp [Vec2.zero_def, Vec2.mk_mul_c, Vec2.mk.injEq]
  · norm_num [Vec2.dot]

/-- Claim C3 (amended): for two agents at positive distance below
`PERCEPTION_RADIUS` — the radius that actually gates the scan, and with the
repository constants the stricter of the two radii — the separation
contribution on the subject points away from the other agent. -/
theorem c3_amended_separation_points_away (self b : BoidState)
    (hpos : 0 < Vec2.dist self.position b.position)
    (hper : Vec2.dist self.position b.position < PERCEPTION_RADIUS)
    (hw : 0 < self.separationWeight) :
    ∃ s, separationContribution self [b] = some s ∧
      0 < Vec2.dot s (self.position - b.position) := by
  set q := self.position - b.position with hq
  set d := Vec2.dist self.position b.position with hd
  have hlen : q.length = d := rfl
  have hdne : q.length ≠ 0 := by rw [hlen]; exact hpos.ne'
  have hdne' : d ≠ 0 := hpos.ne'
  have hsep : d < SEPARATION_RADIUS :=
    lt_trans hper (by norm_num [PERCEPTION_RADIUS, SEPARATION_RADIUS])
  have hacc : rulesAcc self.position [b] ⟨0, 0, 0, 0⟩
      = some ⟨(0 : Vec2) + q.normalize / d, (0 : Vec2) + b.velocity,
          (0 : Vec2) + b.position, 0 + 1⟩ := by
    rw [rulesAcc, if_pos hper, if_pos hsep, Vec2.normalizeOpt, if_neg hdne]
    simp [rulesAcc]
  refine ⟨((0 : Vec2) + q.normalize / d) * self.separationWeight, ?_, ?_⟩
  · simp [separationContribution, hacc]
  · rw [Vec2.zero_add, Vec2.normalize_eq_hmul, hlen]
    have hq2 : q.lengthSq = d ^ 2 := by rw [← Vec2.sq_length, hlen]
    have key : Vec2.dot ((q * (1 / d)) / d * self.separationWeight) q
        = self.separationWeight * q.lengthSq / d ^ 2 := by
      unfold Vec2.dot Vec2.lengthSq
      simp only [Vec2.hmul_x, Vec2.hmul_y, Vec2.div_x, Vec2.div_y]
      field_simp
      ring
    rw [key, hq2, mul_div_assoc, div_self (pow_ne_zero 2 hdne'), mul_one]
    exact hw

/-- Witness for the amended C3 at two agents ten units apart. -/
theorem c3_amended_separation_points_away_witness :
    0 < Vec2.dist (mkBoid ⟨0, 0⟩ ⟨1, 0⟩).position (mkBoid ⟨10, 0⟩ ⟨1, 0⟩).position ∧
    Vec2.dist (mkBoid ⟨0, 0⟩ ⟨1, 0⟩).position (mkBoid ⟨10, 0⟩ ⟨1, 0⟩).position
      < PERCEPTION_RADIUS ∧
    0 < (mkBoid ⟨0, 0⟩ ⟨1, 0⟩).separationWeight ∧
    ∃ s, separationContribution (mkBoid ⟨0, 0⟩ ⟨1, 0⟩) [mkBoid ⟨10, 0⟩ ⟨1, 0⟩] = some s ∧
      0 < Vec2.dot s ((mkBoid ⟨0, 0⟩ ⟨1, 0⟩).position - (mkBoid ⟨10, 0⟩ ⟨1, 0⟩).position) := by
  have hd : Vec2.dist (mkBoid ⟨0, 0⟩ ⟨1, 0⟩).position (mkBoid ⟨10, 0⟩ ⟨1, 0⟩).position = 10 := by
    norm_num [mkBoid, Vec2.dist, Vec2.mk_sub_mk, Vec2.length_mk_xaxis_neg]
  refine ⟨by rw [hd]; norm_num, by rw [hd]; norm_num [PERCEPTION_RADIUS],
    by norm_num [mkBoid, SEPARATION_WEIGHT], ?_⟩
  exact c3_amended_separation_points_away _ _ (by rw [hd]; norm_num)
    (by rw [hd]; norm_num [PERCEPTION_RADIUS]) (by norm_num [mkBoid, SEPARATION_WEIGHT])

/-! ### Claim C4: unguarded normalizations -/

/-- Claim C4 is violated by `apply_rules` (code bug): with coincident agents
the separation step normalizes the zero difference vector and faults
(pygame raises `ValueError`), and with a zero average-cohesion offset the
cohesion step faults the same way — neither contributes a zero vector.  The
attractor loop, by contrast, is guarded and does contribute zero for a
subject exactly at the attractor. -/
theorem c4_unguarded_normalize_faults :
    applyRules c4A [c4B] = none ∧
    applyRules c4C [c4D, c4E] = none ∧
    attractorContribution ATTRACTOR_FORCE ATTRACTOR_FORCE_DISTANCE_EXP ATTRACTOR_FORCE_MAX
      MASS_EQUIVALENT ⟨700, 500⟩ ⟨700, 500⟩ = 0 := by
  refine ⟨?_, ?_, ?_⟩
  · norm_num [applyRules, rulesAcc, c4A, c4B, mkBoid, Vec2.dist, Vec2.mk_sub_mk,
      Vec2.normalizeOpt, Vec2.length_mk_xaxis_nonneg, PERCEPTION_RADIUS, SEPARATION_RADIUS]
  · norm_num [applyRules, rulesAcc, c4C, c4D, c4E, mkBoid, Vec2.dist, Vec2.mk_sub_mk,
      Vec2.mk_add_mk, Vec2.zero_add, Vec2.add_zero, Vec2.mk_div_c, Vec2.normalizeOpt,
      Vec2.normalize, Vec2.length_mk_xaxis_nonneg, Vec2.length_mk_xaxis_neg, Vec2.zero_def,
      PERCEPTION_RADIUS, SEPARATION_RADIUS]
  · norm_num [attractorContribution, Vec2.mk_sub_mk, Vec2.length_mk_xaxis_nonneg]

/-! ### Claim C1: velocity magnitude after the integration step -/

/-- Claim C1 is violated by `Boid.update` (code bug): the relaxation step
reuses the speed computed before the cap, so the cap is overwritten.  Both
boids start with speed at most `MAX_SPEED`, but after one full update
(inertia, cap, relaxation, position advance, damping) the subject's speed
is `7.09175 > MAX_SPEED = 5`. -/
theorem c1_speed_cap_violated :
    c1A.velocity.length ≤ MAX_SPEED ∧ c1B.velocity.length ≤ MAX_SPEED ∧
    ∃ A2, updateBoid zeroNoise [] 1500 1000 c1A [c1B] = some A2 ∧
      MAX_SPEED < A2.velocity.length := by
  refine ⟨?_, ?_, ?_⟩
  · norm_num [c1A, mkBoid, Vec2.length_mk_xaxis_nonneg, MAX_SPEED]
  · norm_num [c1B, mkBoid, Vec2.length_mk_xaxis_nonneg, MAX_SPEED]
  have hrules : applyRules c1A [c1B] = some ⟨-(29.4), 0⟩ := by
    norm_num [applyRules, rulesAcc, c1A, c1B, mkBoid, Vec2.dist, Vec2.mk_sub_mk, Vec2.mk_add_mk,
      Vec2.zero_add, Vec2.add_zero, Vec2.div_one, Vec2.mk_mul_c, Vec2.mk_div_c,
      Vec2.normalizeOpt, Vec2.normalize, Vec2.length_mk_xaxis_neg, Vec2.length_mk_xaxis_nonneg,
      PERCEPTION_RADIUS, SEPARATION_RADIUS, SEPARATION_WEIGHT, ALIGNMENT_WEIGHT, COHESION_WEIGHT,
      Vec2.mk.injEq]
  have hacc : (0 : Vec2) + ⟨-(29.4), 0⟩ + avoidEdges 1500 1000 c1A.position
      + (⟨zeroNoise c1A.noiseOffsetX, zeroNoise c1A.noiseOffsetY⟩ : Vec2) * RANDOMNESS_WEIGHT
      + attractorSum [] c1A.position = ⟨-(29.4), 0⟩ := by
    norm_num [c1A, mkBoid, avoidEdges, zeroNoise, attractorSum, RANDOMNESS_WEIGHT,
      BOUNDARY_PERCEPTION, PERCEPTION_RADIUS, Vec2.zero_add, Vec2.add_zero, Vec2.mk_add_mk,
      Vec2.mk_mul_c, Vec2.mk.injEq]
  have hint : integrateVelocity START_SPEED SPEED_ADJUSTMENT_FACTOR MAX_SPEED MASS_EQUIVALENT
      c1A.velocity ⟨-(29.4), 0⟩ = ⟨-(7.465), 0⟩ := by
    norm_num [integrateVelocity, c1A, mkBoid, START_SPEED, SPEED_ADJUSTMENT_FACTOR, MAX_SPEED,
      MASS_EQUIVALENT, Vec2.mk_add_mk, Vec2.mk_div_c, Vec2.mk_mul_c, Vec2.normalize,
      Vec2.length_mk_xaxis_neg, Vec2.mk.injEq]
  have hupd : updateBoid zeroNoise [] 1500 1000 c1A [c1B] = some { c1A with
      position := c1A.position + ⟨-(7.465), 0⟩,
      velocity := (0.95 : ℝ) * (⟨-(7.465), 0⟩ : Vec2),
      acceleration := ⟨-(29.4), 0⟩,
      noiseOffsetX := c1A.noiseOffsetX + 0.01,
      noiseOffsetY := c1A.noiseOffsetY + 0.01 } := by
    simp only [updateBoid, hrules, Option.map_some']
    rw [hacc, hint]
  refine ⟨_, hupd, ?_⟩
  norm_num [Vec2.c_mul_mk, Vec2.length_mk_xaxis_neg, MAX_SPEED]

/-! ### Claim C2: snapshot isolation of the tick -/

theorem eval_c2A_update : updateBoid zeroNoise [] 1500 1000 c2A [c2B] = some c2A' := by
  have hrules : applyRules c2A [c2B] = some ⟨0.3, 0⟩ := by
    norm_num [applyRules, rulesAcc, c2A, c2B, mkBoid, Vec2.dist, Vec2.mk_sub_mk, Vec2.mk_add_mk,
      Vec2.zero_add, Vec2.add_zero, Vec2.div_one, Vec2.mk_mul_c, Vec2.mk_div_c,
      Vec2.normalizeOpt, Vec2.normalize, Vec2.length_mk_xaxis_neg, Vec2.length_mk_xaxis_nonneg,
      PERCEPTION_RADIUS, SEPARATION_RADIUS, SEPARATION_WEIGHT, ALIGNMENT_WEIGHT, COHESION_WEIGHT,
      Vec2.mk.injEq]
  have hacc : (0 : Vec2) + ⟨0.3, 0⟩ + avoidEdges 1500 1000 c2A.position
      + (⟨zeroNoise c2A.noiseOffsetX, zeroNoise c2A.noiseOffsetY⟩ : Vec2) * RANDOMNESS_WEIGHT
      + attractorSum [] c2A.position = ⟨0.3, 0⟩ := by
    norm_num [c2A, mkBoid, avoidEdges, zeroNoise, attractorSum, RANDOMNESS_WEIGHT,
      BOUNDARY_PERCEPTION, PERCEPTION_RADIUS, Vec2.zero_add, Vec2.add_zero, Vec2.mk_add_mk,
      Vec2.mk_mul_c, Vec2.mk.injEq]
  have hint : integrateVelocity START_SPEED SPEED_ADJUSTMENT_FACTOR MAX_SPEED MASS_EQUIVALENT
      c2A.velocity ⟨0.3, 0⟩ = ⟨1.48, 0⟩ := by
    norm_num [integrateVelocity, c2A, mkBoid, START_SPEED, SPEED_ADJUSTMENT_FACTOR, MAX_SPEED,
      MASS_EQUIVALENT, Vec2.mk_add_mk, Vec2.mk_div_c, Vec2.mk_mul_c, Vec2.normalize,
      Vec2.length_mk_xaxis_nonneg, Vec2.mk.injEq]
  simp only [updateBoid, hrules, Option.map_some']
  rw [hacc, hint]
  norm_num [c2A, c2A', mkBoid, BoidState.mk.injEq, Vec2.mk.injEq, Vec2.mk_add_mk,
    Vec2.c_mul_mk]

theorem eval_c2Bip_update : updateBoid zeroNoise [] 1500 1000 c2B [c2A'] = some c2Bip := by
  have hrules : applyRules c2B [c2A'] = some ⟨41413 / 177500, 0⟩ := by
    norm_num [applyRules, rulesAcc, c2B, c2A', mkBoid, Vec2.dist, Vec2.mk_sub_mk, Vec2.mk_add_mk,
      Vec2.zero_add, Vec2.add_zero, Vec2.div_one, Vec2.mk_mul_c, Vec2.mk_div_c,
      Vec2.normalizeOpt, Vec2.normalize, Vec2.length_mk_xaxis_neg, Vec2.length_mk_xaxis_nonneg,
      PERCEPTION_RADIUS, SEPARATION_RADIUS, SEPARATION_WEIGHT, ALIGNMENT_WEIGHT, COHESION_WEIGHT,
      Vec2.mk.injEq]
  have hacc : (0 : Vec2) + ⟨41413 / 177500, 0⟩ + avoidEdges 1500 1000 c2B.position
      + (⟨zeroNoise c2B.noiseOffsetX, zeroNoise c2B.noiseOffsetY⟩ : Vec2) * RANDOMNESS_WEIGHT
      + attractorSum [] c2B.position = ⟨41413 / 177500, 0⟩ := by
    norm_num [c2B, mkBoid, avoidEdges, zeroNoise, attractorSum, RANDOMNESS_WEIGHT,
      BOUNDARY_PERCEPTION, PERCEPTION_RADIUS, Vec2.zero_add, Vec2.add_zero, Vec2.mk_add_mk,
      Vec2.mk_mul_c, Vec2.mk.injEq]
  have hint : integrateVelocity START_SPEED SPEED_ADJUSTMENT_FACTOR MAX_SPEED MASS_EQUIVALENT
      c2B.velocity ⟨41413 / 177500, 0⟩ = ⟨5171141 / 3550000, 0⟩ := by
    norm_num [integrateVelocity, c2B, mkBoid, START_SPEED, SPEED_ADJUSTMENT_FACTOR, MAX_SPEED,
      MASS_EQUIVALENT, Vec2.mk_add_mk, Vec2.mk_div_c, Vec2.mk_mul_c, Vec2.normalize,
      Vec2.length_mk_xaxis_nonneg, Vec2.mk.injEq]
  simp only [updateBoid, hrules, Option.map_some']
  rw [hacc, hint]
  norm_num [c2B, c2Bip, mkBoid, BoidState.mk.injEq, Vec2.mk.injEq, Vec2.mk_add_mk,
    Vec2.c_mul_mk]

theorem eval_c2Bsnap_update : updateBoid zeroNoise [] 1500 1000 c2B [c2A] = some c2Bsnap := by
  have hrules : applyRules c2B [c2A] = some ⟨0.1, 0⟩ := by
    norm_num [applyRules, rulesAcc, c2B, c2A, mkBoid, Vec2.dist, Vec2.mk_sub_mk, Vec2.mk_add_mk,
      Vec2.zero_add, Vec2.add_zero, Vec2.div_one, Vec2.mk_mul_c, Vec2.mk_div_c,
      Vec2.normalizeOpt, Vec2.normalize, Vec2.length_mk_xaxis_neg, Vec2.length_mk_xaxis_nonneg,
      PERCEPTION_RADIUS, SEPARATION_RADIUS, SEPARATION_WEIGHT, ALIGNMENT_WEIGHT, COHESION_WEIGHT,
      Vec2.mk.injEq]
  have hacc : (0 : Vec2) + ⟨0.1, 0⟩ + avoidEdges 1500 1000 c2B.position
      + (⟨zeroNoise c2B.noiseOffsetX, zeroNoise c2B.noiseOffsetY⟩ : Vec2) * RANDOMNESS_WEIGHT
      + attractorSum [] c2B.position = ⟨0.1, 0⟩ := by
    norm_num [c2B, mkBoid, avoidEdges, zeroNoise, attractorSum, RANDOMNESS_WEIGHT,
      BOUNDARY_PERCEPTION, PERCEPTION_RADIUS, Vec2.zero_add, Vec2.add_zero, Vec2.mk_add_mk,
      Vec2.mk_mul_c, Vec2.mk.injEq]
  have hint : integrateVelocity START_SPEED SPEED_ADJUSTMENT_FACTOR MAX_SPEED MASS_EQUIVALENT
      c2B.velocity ⟨0.1, 0⟩ = ⟨1.41, 0⟩ := by
    norm_num [integrateVelocity, c2B, mkBoid, START_SPEED, SPEED_ADJUSTMENT_FACTOR, MAX_SPEED,
      MASS_EQUIVALENT, Vec2.mk_add_mk, Vec2.mk_div_c, Vec2.mk_mul_c, Vec2.normalize,
      Vec2.length_mk_xaxis_nonneg, Vec2.mk.injEq]
  simp only [updateBoid, hrules, Option.map_some']
  rw [hacc, hint]
  norm_num [c2B, c2Bsnap, mkBoid, BoidState.mk.injEq, Vec2.mk.injEq, Vec2.mk_add_mk,
    Vec2.c_mul_mk]

/-- Claim C2 counterexample: on the two-boid population `[c2A, c2B]`, the
sequential in-place sweep of `main` differs from the snapshot-isolated
sweep: the second boid's force computation reads the first boid's
same-tick update. -/
theorem c2_sweep_counterexample :
    sweepInPlace zeroNoise [] 1500 1000 [c2A, c2B]
      ≠ sweepSnapshot zeroNoise [] 1500 1000 [c2A, c2B] := by
  have h1 : sweepInPlace zeroNoise [] 1500 1000 [c2A, c2B] = some [c2A', c2Bip] := by
    simp [sweepInPlace, sweepAux, sweepStep, show List.range 2 = [0, 1] from rfl,
      List.eraseIdx, eval_c2A_update, eval_c2Bip_update]
  have h2 : sweepSnapshot zeroNoise [] 1500 1000 [c2A, c2B] = some [c2A', c2Bsnap] := by
    simp [sweepSnapshot, snapAux, show List.range 2 = [0, 1] from rfl, List.eraseIdx,
      eval_c2A_update, eval_c2Bsnap_update]
  rw [h1, h2]
  norm_num [c2A', c2Bip, c2Bsnap, BoidState.mk.injEq, Vec2.mk.injEq]

theorem sweepStep_eq_of_none (nf : ℝ → ℝ) (ats : List Vec2) (W H : ℝ) (s : List BoidState)
    (i : ℕ) (h : s[i]? = none) : sweepStep nf ats W H s i = some s := by
  unfold sweepStep
  rw [h]

theorem sweepStep_eq_of_some (nf : ℝ → ℝ) (ats : List Vec2) (W H : ℝ) (s : List BoidState)
    (i : ℕ) (self : BoidState) (h : s[i]? = some self) :
    sweepStep nf ats W H s i
      = (updateBoid nf ats W H self (s.eraseIdx i)).map fun self2 => s.set i self2 := by
  unfold sweepStep
  rw [h]

theorem sweepStep_getZero (nf : ℝ → ℝ) (ats : List Vec2) (W H : ℝ) (s s2 : List BoidState)
    (i : ℕ) (hi : i ≠ 0) (h : sweepStep nf ats W H s i = some s2) : s2[0]? = s[0]? := by
  cases hg : s[i]? with
  | none =>
    rw [sweepStep_eq_of_none nf ats W H s i hg] at h
    injection h with h
    rw [← h]
  | some self =>
    rw [sweepStep_eq_of_some nf ats W H s i self hg] at h
    cases hu : updateBoid nf ats W H self (s.eraseIdx i) with
    | none => rw [hu] at h; simp at h
    | some b2 =>
      rw [hu] at h
      simp only [Option.map_some', Option.some.injEq] at h
      rw [← h]
      exact List.getElem?_set_ne hi

theorem sweepAux_getZero (nf : ℝ → ℝ) (ats : List Vec2) (W H : ℝ) (is : List ℕ)
    (s r : List BoidState) (his : ∀ i ∈ is, i ≠ 0)
    (h : sweepAux nf ats W H is s = some r) : r[0]? = s[0]? := by
  induction is generalizing s with
  | nil =>
    simp only [sweepAux, Option.some.injEq] at h
    rw [← h]
  | cons i rest ih =>
    simp only [sweepAux] at h
    cases hstep : sweepStep nf ats W H s i with
    | none => rw [hstep] at h; simp at h
    | some s2 =>
      rw [hstep] at h
      simp only [Option.some_bind] at h
      rw [ih s2 (fun j hj => his j (List.mem_cons_of_mem _ hj)) h,
        sweepStep_getZero nf ats W H s s2 i (his i (List.mem_cons_self i rest)) hstep]

/-- Claim C2 (amended): only the first agent of the sweep is guaranteed to
observe the previous tick's states.  For every population, whenever both
the in-place sweep of `main` and the snapshot-isolated sweep succeed, the
first agent's updated state agrees between the two — its forces are
computed from the unmodified start-of-tick population either way — while
later agents may observe earlier agents' same-tick updates (see the
counterexample). -/
theorem c2_amended_first_agent_snapshot (nf : ℝ → ℝ) (ats : List Vec2) (W H : ℝ)
    (b : BoidState) (rest res res' : List BoidState)
    (h1 : sweepInPlace nf ats W H (b :: rest) = some res)
    (h2 : sweepSnapshot nf ats W H (b :: rest) = some res') :
    res[0]? = res'[0]? := by
  unfold sweepInPlace at h1
  unfold sweepSnapshot at h2
  rw [show (b :: rest).length = rest.length + 1 from rfl, List.range_succ_eq_map] at h1 h2
  simp only [sweepAux, sweepStep, List.getElem?_cons_zero, List.eraseIdx] at h1
  simp only [snapAux, List.getElem?_cons_zero, List.eraseIdx] at h2
  cases hu : updateBoid nf ats W H b rest with
  | none => rw [hu] at h1; simp at h1
  | some b2 =>
    rw [hu] at h1 h2
    simp only [Option.map_some', Option.some_bind] at h1 h2
    have hset : (b :: rest).set 0 b2 = b2 :: rest := rfl
    rw [hset] at h1
    have hres0 : res[0]? = some b2 := by
      rw [sweepAux_getZero nf ats W H _ _ _ ?_ h1]
      · exact List.getElem?_cons_zero
      · intro i hi
        obtain ⟨j, _, rfl⟩ := List.mem_map.mp hi
        exact Nat.succ_ne_zero j
    cases hs : snapAux nf ats W H (b :: rest) (List.map Nat.succ (List.range rest.length)) with
    | none => rw [hs] at h2; simp at h2
    | some bs =>
      rw [hs] at h2
      simp only [Option.map_some', Option.some.injEq] at h2
      rw [hres0, ← h2]
      exact List.getElem?_cons_zero.symm

theorem eval_c2single_update : updateBoid zeroNoise [] 1500 1000 c2A [] = some c2single := by
  have hrules : applyRules c2A [] = some 0 := by
    simp [applyRules, rulesAcc]
  have hacc : (0 : Vec2) + 0 + avoidEdges 1500 1000 c2A.position
      + (⟨zeroNoise c2A.noiseOffsetX, zeroNoise c2A.noiseOffsetY⟩ : Vec2) * RANDOMNESS_WEIGHT
      + attractorSum [] c2A.position = ⟨0, 0⟩ := by
    norm_num [c2A, mkBoid, avoidEdges, zeroNoise, attractorSum, RANDOMNESS_WEIGHT,
      BOUNDARY_PERCEPTION, PERCEPTION_RADIUS, Vec2.zero_add, Vec2.add_zero, Vec2.zero_def,
      Vec2.mk_add_mk, Vec2.mk_mul_c, Vec2.mk.injEq]
  have hint : integrateVelocity START_SPEED SPEED_ADJUSTMENT_FACTOR MAX_SPEED MASS_EQUIVALENT
      c2A.velocity ⟨0, 0⟩ = ⟨1.375, 0⟩ := by
    norm_num [integrateVelocity, c2A, mkBoid, START_SPEED, SPEED_ADJUSTMENT_FACTOR, MAX_SPEED,
      MASS_EQUIVALENT, Vec2.mk_add_mk, Vec2.mk_div_c, Vec2.mk_mul_c, Vec2.normalize,
      Vec2.length_mk_xaxis_nonneg, Vec2.mk.injEq]
  simp only [updateBoid, hrules, Option.map_some']
  rw [hacc, hint]
  norm_num [c2A, c2single, mkBoid, BoidState.mk.injEq, Vec2.mk.injEq, Vec2.mk_add_mk,
    Vec2.c_mul_mk]

/-- Witness for the amended C2 on a one-boid population: both sweeps
succeed and agree on the first (only) agent. -/
theorem c2_amended_first_agent_snapshot_witness :
    ∃ r r', sweepInPlace zeroNoise [] 1500 1000 [c2A] = some r ∧
      sweepSnapshot zeroNoise [] 1500 1000 [c2A] = some r' ∧ r[0]? = r'[0]? := by
  have h1 : sweepInPlace zeroNoise [] 1500 1000 [c2A] = some [c2single] := by
    simp [sweepInPlace, sweepAux, sweepStep, show List.range 1 = [0] from rfl, List.eraseIdx,
      eval_c2single_update]
  have h2 : sweepSnapshot zeroNoise [] 1500 1000 [c2A] = some [c2single] := by
    simp [sweepSnapshot, snapAux, show List.range 1 = [0] from rfl, List.eraseIdx,
      eval_c2single_update]
  exact ⟨[c2single], [c2single], h1, h2,
    c2_amended_first_agent_snapshot zeroNoise [] 1500 1000 c2A [] _ _ h1 h2⟩

/-! ### Claim C10: field sampler purity and zero-attractor minimum -/

/-- Claim C10: the field sampler is a pure deterministic function of the
attractor set and the world bounds — grids computed from equal attractor
lists are identical cell by cell — and with zero attractors every grid
cell's brightness is the minimum byte value 0. -/
theorem c10_field_sampler_pure_and_min :
    (∀ (W H : ℝ) (as bs : List Vec2) (i j : ℕ), as = bs →
      gridBrightness W H as i j = gridBrightness W H bs i j) ∧
    (∀ (W H : ℝ) (i j : ℕ), gridBrightness W H [] i j = 0) := by
  constructor
  · intro W H as bs i j h
    rw [h]
  · intro W H i j
    unfold gridBrightness brightnessByte brightnessReal netFieldForce
    norm_num [Vec2.length_zero, ATTRACTOR_FORCE_MAX, ATTRACTOR_COLOR_FACTOR, min_def, max_def]

/-- Witness for C10 at concrete bounds, attractor list and grid cells. -/
theorem c10_field_sampler_pure_and_min_witness :
    gridBrightness 1500 1000 [⟨100, 100⟩] 0 0 = gridBrightness 1500 1000 [⟨100, 100⟩] 0 0 ∧
    gridBrightness 1500 1000 [] 2 3 = 0 :=
  ⟨c10_field_sampler_pure_and_min.1 1500 1000 [⟨100, 100⟩] [⟨100, 100⟩] 0 0 rfl,
   c10_field_sampler_pure_and_min.2 1500 1000 2 3⟩

end Boids
